import Mathlib

/-!
Verification of the real-time audio streaming pipeline of Consumer-Lumen.

The definitions below are a shallow embedding of the live-session audio code
in `src/components/LiveSession.tsx`:

* the playback scheduler inlined in the transport `onmessage` callback
  (lines 99-127): the virtual timeline cursor `nextStartTimeRef`, the active
  source set `sourcesRef`, gapless scheduling, and barge-in interruption;
* the capture tick handler `scriptProcessor.onaudioprocess` (lines 75-90):
  mute check, RMS loudness metering, PCM encoding and transport send;
* the mount effect / connection wiring (lines 46-172): the handler is
  installed only inside the transport `onopen` callback, and the closure
  captures the mount-time value of the `isMuted` React state;
* the `disconnect` teardown (lines 29-44): sequential resource releases with
  no exception handling.

The PCM codec lives in `src/services/audioUtils.ts`, which is imported by the
sources but is not part of the repository snapshot; those definitions are
modelled from the specification (§4.1) and are marked as such.

Times, durations and samples are modelled as rationals (the code uses IEEE
doubles; none of the verified properties depends on rounding of binary
floating point, only on exact arithmetic identities and inequalities).
-/

namespace ConsumerLumen

/-- A decoded audio buffer: normalized samples tagged with sample rate and
channel count (spec §3, `SampleBuffer`; in the code an `AudioBuffer`). -/
structure SampleBuffer where
  samples : List ℚ
  rate : ℕ
  channels : ℕ
  deriving Repr, DecidableEq

/-- Duration in seconds of a decoded buffer, as reported by
`AudioBuffer.duration`: frame count (`samples.length / channels`) divided by
the sample rate. -/
def bufDuration (b : SampleBuffer) : ℚ :=
  (b.samples.length : ℚ) / ((b.channels : ℚ) * (b.rate : ℚ))

/-- One scheduled source: the `AudioBufferSourceNode` created per inbound
chunk, identified by a fresh id (object identity in the code), carrying the
start time passed to `source.start` and the buffer duration. -/
structure PlaybackHandle where
  id : ℕ
  start : ℚ
  duration : ℚ
  deriving Repr, DecidableEq

/-- Scheduler state: the virtual timeline cursor `nextStartTimeRef.current`
(initialized to 0), the active set `sourcesRef.current`, and a counter
supplying fresh ids for created sources. -/
structure SchedulerState where
  nextStartTime : ℚ
  sources : List PlaybackHandle
  nextId : ℕ
  deriving Repr, DecidableEq

/-- The scheduler state at session start: cursor 0, no active sources. -/
def initScheduler : SchedulerState := ⟨0, [], 0⟩

/-- The audio-scheduling block of `onmessage` (LiveSession.tsx lines
102-119) for one decoded buffer `b` arriving at audio-clock time `now`:
raise the cursor to `max(nextStartTime, ctx.currentTime)` (line 102), start
a fresh source at that cursor (line 117), advance the cursor by the buffer
duration (line 118), and add the source to the active set (line 119).
Returns the created handle together with the updated state. -/
def scheduleForPlayback (now : ℚ) (b : SampleBuffer) (s : SchedulerState) :
    PlaybackHandle × SchedulerState :=
  let start := max s.nextStartTime now
  let h : PlaybackHandle := ⟨s.nextId, start, bufDuration b⟩
  (h, ⟨start + bufDuration b, s.sources ++ [h], s.nextId + 1⟩)

/-- The `ended` event listener registered on each source (lines 114-116):
`sourcesRef.current.delete(source)` removes exactly that source from the
active set when it finishes naturally. -/
def handleEnded (h : PlaybackHandle) (s : SchedulerState) : SchedulerState :=
  { s with sources := s.sources.filter (fun g => g.id ≠ h.id) }

/-- The interruption block of `onmessage` (lines 123-127): stop every active
source, clear the set, and reset the cursor to 0. -/
def interruptScheduler (s : SchedulerState) : SchedulerState :=
  ⟨0, [], s.nextId⟩

/-- Well-formedness of a scheduler state: every active source carries an id
below the fresh-id counter.  Holds initially and is preserved by every
operation; it makes `handleEnded` remove exactly the finished source. -/
def SchedWF (s : SchedulerState) : Prop :=
  ∀ g ∈ s.sources, g.id < s.nextId

instance (s : SchedulerState) : Decidable (SchedWF s) := by
  unfold SchedWF; infer_instance

/-- Modelled from the spec: `createPcmBlob`, `decodeAudioData` and the PCM
helpers live in `src/services/audioUtils.ts`, which is imported by
`LiveSession.tsx` but missing from the snapshot; §4.1 specifies
`encodePcm16` as `round(clamp(s, -1, 1) * 32767)`.  This is the clamping
step. -/
def clampSample (s : ℚ) : ℚ := max (-1) (min 1 s)

/-- Modelled from the spec (§4.1, `encodePcm16`): quantize one normalized
sample to a signed 16-bit integer, `round(clamp(s, -1, 1) * 32767)`. -/
def encodeSampleInt (s : ℚ) : ℤ := round (clampSample s * 32767)

/-- Modelled from the spec (§4.1): serialize a signed 16-bit integer as two
little-endian bytes (twos-complement, low byte first). -/
def int16LeBytes (n : ℤ) : List ℕ :=
  let u := (n % 65536).toNat
  [u % 256, u / 256]

/-- Modelled from the spec (§4.1, `encodePcm16`): the full encoder, two
little-endian bytes per sample, channels interleaved in sample order. -/
def encodePcm16 (b : SampleBuffer) : List ℕ :=
  (b.samples.map (fun s => int16LeBytes (encodeSampleInt s))).flatten

/-- Modelled from the spec (§4.1, `decodePcm16`): reinterpret an unsigned
16-bit value (a little-endian byte pair already combined) as signed. -/
def uint16ToInt (u : ℕ) : ℤ :=
  if u < 32768 then (u : ℤ) else (u : ℤ) - 65536

/-- Modelled from the spec (§4.1, `decodePcm16`): decode a byte list (each
byte in `[0, 256)`) two bytes at a time, dividing each little-endian signed
16-bit value by 32768. -/
def decodeSamplesPcm16 : List ℕ → List ℚ
  | lo :: hi :: rest =>
      ((uint16ToInt (lo + 256 * hi) : ℤ) : ℚ) / 32768 :: decodeSamplesPcm16 rest
  | _ => []

/-- Modelled from the spec (§4.1, `decodePcm16`): decoding fails (the
`MalformedAudioError` case, `none` here) when the byte length is not a
multiple of `2 * channelCount`; otherwise it returns the decoded buffer
tagged with the given rate and channel count. -/
def decodePcm16 (bytes : List ℕ) (rate channels : ℕ) : Option SampleBuffer :=
  if bytes.length % (2 * channels) = 0 then
    some ⟨decodeSamplesPcm16 bytes, rate, channels⟩
  else
    none

/-- One inbound transport message as far as the `onmessage` handler reads
it: the audio payload `message.serverContent?.modelTurn?.parts?.[0]?.
inlineData?.data` (base64 in the code, modelled as the decoded bytes; the
empty list covers both an absent field and an empty string, which are
equally falsy at the line-100 guard), and the
`message.serverContent?.interrupted` flag. -/
structure ServerMessage where
  audioData : List ℕ
  interrupted : Bool
  deriving Repr, DecidableEq

/-- Observable side effects of the `onmessage` handler: `source.start` on a
created source, and the stop/clear of every active source on interruption. -/
inductive SchedAction where
  | play (h : PlaybackHandle)
  | stopAll (hs : List PlaybackHandle)
  deriving Repr, DecidableEq

/-- Result of running the `onmessage` handler: either it runs to completion
with a final scheduler state and the list of emitted actions, or the
`await decodeAudioData` rejects (malformed chunk) and the async handler
aborts, leaving the state as already mutated by line 102 and never reaching
the interruption check. -/
inductive HandlerOutcome where
  | ok (s : SchedulerState) (acts : List SchedAction)
  | failed (s : SchedulerState) (acts : List SchedAction)
  deriving Repr, DecidableEq

/-- The whole `onmessage` callback (lines 95-128) at audio-clock time
`now`: if the message carries a non-empty audio payload, raise the cursor
(line 102), decode at 24000 Hz mono (lines 104-109; a decode failure aborts
the handler), and schedule the decoded buffer (lines 111-119); afterwards,
if the `interrupted` flag is set (line 123), stop and clear every active
source and reset the cursor (lines 124-126). -/
def handleMessage (now : ℚ) (m : ServerMessage) (s : SchedulerState) :
    HandlerOutcome :=
  let afterAudio : SchedulerState × List SchedAction ⊕ SchedulerState :=
    if m.audioData.isEmpty then
      Sum.inl (s, [])
    else
      match decodePcm16 m.audioData 24000 1 with
      | none => Sum.inr { s with nextStartTime := max s.nextStartTime now }
      | some buf =>
          let p := scheduleForPlayback now buf s
          Sum.inl (p.2, [SchedAction.play p.1])
  match afterAudio with
  | Sum.inr s1 => HandlerOutcome.failed s1 []
  | Sum.inl (s1, acts) =>
      if m.interrupted then
        HandlerOutcome.ok (interruptScheduler s1)
          (acts ++ [SchedAction.stopAll s1.sources])
      else
        HandlerOutcome.ok s1 acts

/-- Mean square of a capture frame, the value accumulated by the loop at
lines 81-83 divided by the frame length (`sum / inputData.length`). -/
def meanSquare (xs : List ℚ) : ℚ :=
  (xs.map (fun x => x * x)).sum / (xs.length : ℚ)

/-- The loudness value published by `setVolume` at line 84, squared.  The
code publishes `min(sqrt(meanSquare) * 5, 1)`; rationals have no square
root, so the model carries the square `min(meanSquare * 25, 1)` of that
value, which is order-isomorphic to it and is published at exactly the same
ticks.  No verified property depends on the numeric value, only on whether
a value is published. -/
def volumeSq (xs : List ℚ) : ℚ :=
  min (meanSquare xs * 25) 1

/-- Observable effects of one capture tick: the loudness value handed to
`setVolume` (squared, see `volumeSq`), and the encoded frame handed to
`session.sendRealtimeInput`, if any. -/
structure CaptureTickResult where
  volumePublished : Option ℚ
  frameSent : Option (List ℕ)
  deriving Repr, DecidableEq

/-- The tick result of a handler invocation that does nothing. -/
def silentTick : CaptureTickResult := ⟨none, none⟩

/-- The `scriptProcessor.onaudioprocess` callback (lines 75-90), with
`muted` the value of `isMuted` that the closure observes: if it is set the
handler returns at once (line 76) — before the loudness computation — so
neither a loudness value nor a frame is produced; otherwise the loudness is
published (lines 81-84) and the PCM-encoded frame is sent (lines 86-89;
`createPcmBlob` is modelled from the spec as `encodePcm16` at the 16 kHz
mono capture format). -/
def onAudioProcess (muted : Bool) (frame : List ℚ) : CaptureTickResult :=
  if muted then
    silentTick
  else
    ⟨some (volumeSq frame), some (encodePcm16 ⟨frame, 16000, 1⟩)⟩

/-- Events driving the session from outside: the transport `onopen`
callback, a capture tick delivering one frame, and a click on the mute
toggle button (line 221, `setIsMuted(!isMuted)`). -/
inductive SessEvent where
  | openEvt
  | tick (frame : List ℚ)
  | toggleMute
  deriving Repr, DecidableEq

/-- Session state relevant to the capture path: the current `isMuted` React
state, the value of `isMuted` captured by the mount effect closure (the
effect has an empty dependency array, line 172, so it runs once and its
closure keeps the first-render binding), whether `onopen` has run and
installed `scriptProcessor.onaudioprocess` (lines 66-93), and the
`isConnected` flag. -/
structure SessionState where
  uiMuted : Bool
  capturedMuted : Bool
  handlerInstalled : Bool
  isConnected : Bool
  deriving Repr, DecidableEq

/-- The state right after mount when the first render has `isMuted = m`:
the effect closure captures that value. -/
def mountSession (m : Bool) : SessionState := ⟨m, m, false, false⟩

/-- The state after mount with the `useState(false)` initial value of
`isMuted` (line 15): the session starts unmuted. -/
def initialSession : SessionState := mountSession false

/-- One step of the session: `onopen` installs the capture handler and sets
the connected flag; a capture tick runs `onAudioProcess` with the
closure-captured mute flag once the handler is installed (before `onopen`
no script processor exists, so the tick is silent); the mute button toggles
only the React state — the closure never sees the new value. -/
def sessionStep (s : SessionState) : SessEvent → SessionState × CaptureTickResult
  | SessEvent.openEvt =>
      ({ s with handlerInstalled := true, isConnected := true }, silentTick)
  | SessEvent.tick f =>
      if s.handlerInstalled then (s, onAudioProcess s.capturedMuted f)
      else (s, silentTick)
  | SessEvent.toggleMute =>
      ({ s with uiMuted := !s.uiMuted }, silentTick)

/-- Run a list of events through the session, collecting per-event tick
results in order. -/
def runSession : SessionState → List SessEvent → SessionState × List CaptureTickResult
  | s, [] => (s, [])
  | s, e :: es =>
      let p := sessionStep s e
      let q := runSession p.1 es
      (q.1, p.2 :: q.2)

/-- The operations of the playback scheduler, for stating invariants that
range over every way the scheduler state is mutated: scheduling a decoded
buffer, the natural end of a source, and barge-in interruption. -/
inductive SchedOp where
  | schedule (now : ℚ) (b : SampleBuffer)
  | ended (h : PlaybackHandle)
  | interruption
  deriving Repr, DecidableEq

/-- Apply one scheduler operation to the scheduler state. -/
def stepScheduler : SchedOp → SchedulerState → SchedulerState
  | SchedOp.schedule now b, s => (scheduleForPlayback now b s).2
  | SchedOp.ended h, s => handleEnded h s
  | SchedOp.interruption, s => interruptScheduler s

/-- Environment for the `disconnect` teardown (lines 29-44): which of the
four refs are non-null at the time of the call, and which of the three
fallible releases (`session.close`, input `AudioContext.close`, output
`AudioContext.close`) throws when invoked. -/
structure TeardownEnv where
  sessionPresent : Bool
  inputPresent : Bool
  outputPresent : Bool
  animPresent : Bool
  sessionCloseFails : Bool
  inputCloseFails : Bool
  outputCloseFails : Bool
  deriving Repr, DecidableEq

/-- What a run of `disconnect` did: which releases were actually invoked,
whether the animation frame was cancelled, whether an exception escaped to
the caller, and whether the `onClose` callback was reached. -/
structure TeardownResult where
  sessionAttempted : Bool
  inputAttempted : Bool
  outputAttempted : Bool
  animCancelled : Bool
  threw : Bool
  onCloseCalled : Bool
  deriving Repr, DecidableEq

/-- The `disconnect` callback (lines 29-44), faithfully sequential with no
`try`/`catch`: each guarded release runs in order, and an exception from
any of them propagates immediately, skipping everything after it
(the later releases, `cancelAnimationFrame`, `setIsConnected(false)` and
`onClose()`). -/
def disconnect (env : TeardownEnv) : TeardownResult :=
  if env.sessionPresent && env.sessionCloseFails then
    ⟨true, false, false, false, true, false⟩
  else if env.inputPresent && env.inputCloseFails then
    ⟨env.sessionPresent, true, false, false, true, false⟩
  else if env.outputPresent && env.outputCloseFails then
    ⟨env.sessionPresent, env.inputPresent, true, false, true, false⟩
  else
    ⟨env.sessionPresent, env.inputPresent, env.outputPresent,
     env.animPresent, false, true⟩

/-! ### Codec lemmas -/

/-- The clamped sample always lies in `[-1, 1]`. -/
theorem clampSample_mem (s : ℚ) : -1 ≤ clampSample s ∧ clampSample s ≤ 1 := by
  unfold clampSample
  constructor
  · exact le_max_left _ _
  · exact max_le (by norm_num) (min_le_left _ _)

/-- The quantized sample always lies in `[-32767, 32767]`: out-of-range
input is clamped, never overflows the 16-bit range. -/
theorem encodeSampleInt_range (s : ℚ) :
    -32767 ≤ encodeSampleInt s ∧ encodeSampleInt s ≤ 32767 := by
  obtain ⟨hl, hr⟩ := clampSample_mem s
  unfold encodeSampleInt
  rw [round_eq]
  constructor
  · rw [Int.le_floor]
    push_cast
    nlinarith
  · have h : ⌊clampSample s * 32767 + 1 / 2⌋ < 32768 := by
      rw [Int.floor_lt]
      push_cast
      nlinarith
    omega

/-- Serializing a signed 16-bit value to two little-endian bytes and
reading them back as an unsigned little-endian pair reinterpreted signed
recovers the value. -/
theorem uint16_int16_roundtrip (n : ℤ) (h1 : -32768 ≤ n) (h2 : n ≤ 32767) :
    uint16ToInt ((n % 65536).toNat % 256 + 256 * ((n % 65536).toNat / 256)) = n := by
  rw [Nat.mod_add_div]
  unfold uint16ToInt
  split <;> omega

/-- Decoding a serialized in-range 16-bit value consumes exactly its two
bytes and yields the value divided by 32768. -/
theorem decodeSamplesPcm16_int16 (n : ℤ) (h1 : -32768 ≤ n) (h2 : n ≤ 32767)
    (rest : List ℕ) :
    decodeSamplesPcm16 (int16LeBytes n ++ rest) =
      ((n : ℚ) / 32768) :: decodeSamplesPcm16 rest := by
  simp only [int16LeBytes, List.cons_append, List.nil_append]
  rw [decodeSamplesPcm16, uint16_int16_roundtrip n h1 h2]

/-- Decoding the concatenated per-sample encodings yields exactly the
quantized value of each sample. -/
theorem decodeSamplesPcm16_encode (xs : List ℚ) :
    decodeSamplesPcm16 ((xs.map (fun s => int16LeBytes (encodeSampleInt s))).flatten) =
      xs.map (fun s => ((encodeSampleInt s : ℤ) : ℚ) / 32768) := by
  induction xs with
  | nil => rfl
  | cons x xs ih =>
      obtain ⟨hl, hr⟩ := encodeSampleInt_range x
      simp only [List.map_cons, List.flatten_cons]
      rw [decodeSamplesPcm16_int16 _ (by omega) (by omega), ih]

/-- The encoder produces two bytes per sample. -/
theorem encodePcm16_length (b : SampleBuffer) :
    (encodePcm16 b).length = 2 * b.samples.length := by
  unfold encodePcm16
  induction b.samples with
  | nil => rfl
  | cons x xs ih =>
      simp only [List.map_cons, List.flatten_cons, List.length_append, ih,
        List.length_map, List.length_cons]
      simp [int16LeBytes]
      omega

/-- Quantization error of one in-range sample: encoding scales by 32767 and
rounds, decoding divides by 32768, so the reconstructed value is within
`3/65536 = 1.5/32768` of the original (half an LSB of rounding noise plus
up to `|s|/32768` of scale mismatch between the two constants). -/
theorem encode_decode_sample_close (s : ℚ) (h1 : -1 ≤ s) (h2 : s ≤ 1) :
    |((encodeSampleInt s : ℤ) : ℚ) / 32768 - s| ≤ 3 / 65536 := by
  have hc : clampSample s = s := by
    unfold clampSample
    rw [min_eq_right h2, max_eq_right h1]
  unfold encodeSampleInt
  rw [hc]
  have hr : |((round (s * 32767) : ℤ) : ℚ) - s * 32767| ≤ 1 / 2 := by
    rw [abs_sub_comm]
    exact abs_sub_round (s * 32767)
  have hs : |s| ≤ 1 := abs_le.mpr ⟨h1, h2⟩
  have key : ((round (s * 32767) : ℤ) : ℚ) / 32768 - s =
      (((round (s * 32767) : ℤ) : ℚ) - s * 32767 - s) / 32768 := by
    ring
  rw [key, abs_div, abs_of_pos (by norm_num : (0 : ℚ) < 32768)]
  have htri : |((round (s * 32767) : ℤ) : ℚ) - s * 32767 - s| ≤
      |((round (s * 32767) : ℤ) : ℚ) - s * 32767| + |s| := by
    calc |((round (s * 32767) : ℤ) : ℚ) - s * 32767 - s|
        = |(((round (s * 32767) : ℤ) : ℚ) - s * 32767) + (-s)| := by ring_nf
      _ ≤ |((round (s * 32767) : ℤ) : ℚ) - s * 32767| + |(-s)| := abs_add _ _
      _ = |((round (s * 32767) : ℤ) : ℚ) - s * 32767| + |s| := by rw [abs_neg]
  linarith

/-- Encoding then decoding a well-formed buffer succeeds and reproduces
each quantized sample exactly. -/
theorem decodePcm16_encodePcm16 (b : SampleBuffer)
    (hdvd : b.channels ∣ b.samples.length) :
    decodePcm16 (encodePcm16 b) b.rate b.channels =
      some ⟨b.samples.map (fun s => ((encodeSampleInt s : ℤ) : ℚ) / 32768),
            b.rate, b.channels⟩ := by
  obtain ⟨k, hk⟩ := hdvd
  have hlen : (encodePcm16 b).length % (2 * b.channels) = 0 := by
    rw [encodePcm16_length, hk, ← mul_assoc]
    exact Nat.mul_mod_right _ _
  unfold decodePcm16
  rw [if_pos hlen]
  unfold encodePcm16
  rw [decodeSamplesPcm16_encode]

/-- C8 (amended): for every well-formed SampleBuffer `b` with samples in
`[-1, 1]`, decoding the PCM16 encoding of `b` at the same rate and channel
count succeeds and yields a buffer equal to `b` within `3/65536` per sample
(half an LSB of rounding error plus the `32767`-versus-`32768` scale
mismatch between encoder and decoder); the spec's `1/32768` bound is too
tight (see the counterexample). -/
theorem pcm_roundtrip_within_quantization (b : SampleBuffer)
    (hdvd : b.channels ∣ b.samples.length)
    (hb : ∀ s ∈ b.samples, -1 ≤ s ∧ s ≤ 1) :
    ∃ b2 : SampleBuffer,
      decodePcm16 (encodePcm16 b) b.rate b.channels = some b2 ∧
      b2.rate = b.rate ∧ b2.channels = b.channels ∧
      List.Forall₂ (fun x y => |y - x| ≤ 3 / 65536) b.samples b2.samples := by
  refine ⟨_, decodePcm16_encodePcm16 b hdvd, rfl, rfl, ?_⟩
  show List.Forall₂ _ b.samples
    (b.samples.map (fun s => ((encodeSampleInt s : ℤ) : ℚ) / 32768))
  have main : ∀ xs : List ℚ, (∀ s ∈ xs, -1 ≤ s ∧ s ≤ 1) →
      List.Forall₂ (fun x y => |y - x| ≤ 3 / 65536) xs
        (xs.map (fun s => ((encodeSampleInt s : ℤ) : ℚ) / 32768)) := by
    intro xs
    induction xs with
    | nil =>
        intro _
        exact List.Forall₂.nil
    | cons x rest ih =>
        intro hxs
        obtain ⟨h1, h2⟩ := hxs x (List.mem_cons_self x rest)
        exact List.Forall₂.cons (encode_decode_sample_close x h1 h2)
          (ih (fun s hs => hxs s (List.mem_cons_of_mem x hs)))
  exact main b.samples hb

/-- C8 (witness): a concrete buffer satisfying the hypotheses of the
amended round-trip theorem. -/
theorem pcm_roundtrip_within_quantization_witness :
    ∃ b2 : SampleBuffer,
      decodePcm16 (encodePcm16 ⟨[(1 / 2 : ℚ)], 24000, 1⟩) 24000 1 = some b2 ∧
      b2.rate = 24000 ∧ b2.channels = 1 ∧
      List.Forall₂ (fun x y => |y - x| ≤ 3 / 65536) [(1 / 2 : ℚ)] b2.samples :=
  pcm_roundtrip_within_quantization ⟨[(1 / 2 : ℚ)], 24000, 1⟩
    (Nat.dvd_refl 1) (by norm_num)

/-- C8 (counterexample): the claimed per-sample error bound `1/32768` fails
on the single-sample buffer `[-163832/163835]` (all samples in `[-1, 1]`):
the sample encodes to the 16-bit value `-32766` (bytes `[2, 128]`), decodes
to `-16383/16384`, and the reconstruction error is `114683/2684272640`,
which exceeds `1/32768`. -/
theorem pcm_roundtrip_error_exceeds_bound :
    (-1 ≤ (-163832 / 163835 : ℚ) ∧ (-163832 / 163835 : ℚ) ≤ 1) ∧
    decodePcm16 (encodePcm16 ⟨[(-163832 / 163835 : ℚ)], 24000, 1⟩) 24000 1 =
      some ⟨[(-16383 / 16384 : ℚ)], 24000, 1⟩ ∧
    1 / 32768 < |(-16383 / 16384 : ℚ) - (-163832 / 163835 : ℚ)| := by
  refine ⟨⟨by norm_num, by norm_num⟩, ?_, ?_⟩
  · have h : (32770 : ℤ).toNat = 32770 := rfl
    norm_num [decodePcm16, decodeSamplesPcm16, encodePcm16, encodeSampleInt,
      clampSample, round_eq, int16LeBytes, uint16ToInt, h]
  · rw [abs_of_pos (by norm_num)]
    norm_num

/-! ### Scheduler lemmas -/

/-- A buffer duration is never negative. -/
theorem bufDuration_nonneg (b : SampleBuffer) : 0 ≤ bufDuration b :=
  div_nonneg (Nat.cast_nonneg _) (mul_nonneg (Nat.cast_nonneg _) (Nat.cast_nonneg _))

/-- The handle created by a schedule is fresh: its id is the current
counter, above every id in the active set of a well-formed state. -/
theorem scheduleForPlayback_fresh (now : ℚ) (b : SampleBuffer) (s : SchedulerState)
    (hwf : SchedWF s) :
    ∀ g ∈ s.sources, g.id ≠ (scheduleForPlayback now b s).1.id := by
  intro g hg
  exact Nat.ne_of_lt (hwf g hg)

/-- C1: scheduling computes the start as `max(nextStartTime, now)`, starts
the created source there, advances the cursor by the buffer duration,
appends the handle to the active set, and the `ended` callback removes
exactly that handle; three buffers scheduled in sequence with no delay
(each arriving before the queue drains) start at `t0`, `t0 + d1`,
`t0 + d1 + d2` with `t0 = max(cursor, now₁) ≥ now₁`; and a buffer arriving
after the queue has drained (`nextStartTime < now`) is anchored at `now`. -/
theorem scheduleForPlayback_contract :
    (∀ now b s, SchedWF s →
      (scheduleForPlayback now b s).1.start = max s.nextStartTime now ∧
      (scheduleForPlayback now b s).2.nextStartTime =
        (scheduleForPlayback now b s).1.start + bufDuration b ∧
      (scheduleForPlayback now b s).2.sources =
        s.sources ++ [(scheduleForPlayback now b s).1] ∧
      (handleEnded (scheduleForPlayback now b s).1
        (scheduleForPlayback now b s).2).sources = s.sources) ∧
    (∀ s n1 n2 n3 b1 b2 b3,
      n1 ≤ n2 → n2 ≤ n3 →
      n2 ≤ max s.nextStartTime n1 + bufDuration b1 →
      n3 ≤ max s.nextStartTime n1 + bufDuration b1 + bufDuration b2 →
      n1 ≤ (scheduleForPlayback n1 b1 s).1.start ∧
      (scheduleForPlayback n1 b1 s).1.start = max s.nextStartTime n1 ∧
      (scheduleForPlayback n2 b2 (scheduleForPlayback n1 b1 s).2).1.start =
        max s.nextStartTime n1 + bufDuration b1 ∧
      (scheduleForPlayback n3 b3
          (scheduleForPlayback n2 b2 (scheduleForPlayback n1 b1 s).2).2).1.start =
        max s.nextStartTime n1 + bufDuration b1 + bufDuration b2) ∧
    (∀ now b s, s.nextStartTime < now →
      (scheduleForPlayback now b s).1.start = now) := by
  refine ⟨?_, ?_, ?_⟩
  · intro now b s hwf
    refine ⟨rfl, rfl, rfl, ?_⟩
    show ((s.sources ++ [(scheduleForPlayback now b s).1]).filter
      (fun g => g.id ≠ (scheduleForPlayback now b s).1.id)) = s.sources
    rw [List.filter_append]
    have h1 : s.sources.filter
        (fun g => (g.id ≠ (scheduleForPlayback now b s).1.id : Bool)) = s.sources := by
      rw [List.filter_eq_self]
      intro g hg
      simpa using scheduleForPlayback_fresh now b s hwf g hg
    have h2 : ([(scheduleForPlayback now b s).1].filter
        (fun g => (g.id ≠ (scheduleForPlayback now b s).1.id : Bool))) = [] := by
      simp
    rw [h1, h2, List.append_nil]
  · intro s n1 n2 n3 b1 b2 b3 h12 h23 harr2 harr3
    refine ⟨le_max_right _ _, rfl, ?_, ?_⟩
    · show max (max s.nextStartTime n1 + bufDuration b1) n2 = _
      exact max_eq_left harr2
    · show max (max (max s.nextStartTime n1 + bufDuration b1) n2 + bufDuration b2) n3 = _
      rw [max_eq_left harr2]
      exact max_eq_left harr3
  · intro now b s h
    show max s.nextStartTime now = now
    exact max_eq_right (le_of_lt h)

/-- C1 (witness): the per-call contract at the initial state, and three
buffers of 2, 3 and 4 samples at 24 kHz arriving back-to-back at time 1. -/
theorem scheduleForPlayback_contract_witness :
    (SchedWF initScheduler ∧
      (handleEnded (scheduleForPlayback 1 ⟨[0, 0], 24000, 1⟩ initScheduler).1
        (scheduleForPlayback 1 ⟨[0, 0], 24000, 1⟩ initScheduler).2).sources =
        initScheduler.sources) ∧
    ((1 : ℚ) ≤ 1 ∧ (1 : ℚ) ≤ 1 ∧
      (1 : ℚ) ≤ max initScheduler.nextStartTime 1 + bufDuration ⟨[0, 0], 24000, 1⟩ ∧
      (1 : ℚ) ≤ max initScheduler.nextStartTime 1 + bufDuration ⟨[0, 0], 24000, 1⟩ +
        bufDuration ⟨[0, 0, 0], 24000, 1⟩ ∧
      (scheduleForPlayback 1 ⟨[0, 0, 0], 24000, 1⟩
          (scheduleForPlayback 1 ⟨[0, 0], 24000, 1⟩ initScheduler).2).1.start =
        max initScheduler.nextStartTime 1 + bufDuration ⟨[0, 0], 24000, 1⟩) ∧
    (initScheduler.nextStartTime < (2 : ℚ) ∧
      (scheduleForPlayback 2 ⟨[0], 24000, 1⟩ initScheduler).1.start = 2) := by
  have hwf : SchedWF initScheduler := by
    intro g hg
    simp [initScheduler] at hg
  have harr2 : (1 : ℚ) ≤ max initScheduler.nextStartTime 1 + bufDuration ⟨[0, 0], 24000, 1⟩ := by
    norm_num [initScheduler, bufDuration]
  have harr3 : (1 : ℚ) ≤ max initScheduler.nextStartTime 1 + bufDuration ⟨[0, 0], 24000, 1⟩ +
      bufDuration ⟨[0, 0, 0], 24000, 1⟩ := by
    norm_num [initScheduler, bufDuration]
  refine ⟨⟨hwf, (scheduleForPlayback_contract.1 1 ⟨[0, 0], 24000, 1⟩ initScheduler hwf).2.2.2⟩,
    ⟨le_refl 1, le_refl 1, harr2, harr3,
      (scheduleForPlayback_contract.2.1 initScheduler 1 1 1
        ⟨[0, 0], 24000, 1⟩ ⟨[0, 0, 0], 24000, 1⟩ ⟨[0, 0, 0, 0], 24000, 1⟩
        (le_refl 1) (le_refl 1) harr2 harr3).2.2.1⟩,
    ⟨by norm_num [initScheduler], scheduleForPlayback_contract.2.2 2 ⟨[0], 24000, 1⟩
      initScheduler (by norm_num [initScheduler])⟩⟩

/-- C2: handling an inbound interruption event stops every handle in the
active set (the emitted `stopAll` action carries exactly the current active
set), clears the set, and resets the cursor to 0; consequently the next
schedule starts at `now` (for any non-negative audio-clock time), not at
the previously advanced cursor. -/
theorem interrupt_contract :
    (∀ s, (interruptScheduler s).sources = [] ∧
      (interruptScheduler s).nextStartTime = 0) ∧
    (∀ now s, handleMessage now ⟨[], true⟩ s =
      HandlerOutcome.ok ⟨0, [], s.nextId⟩ [SchedAction.stopAll s.sources]) ∧
    (∀ now b s, 0 ≤ now →
      (scheduleForPlayback now b (interruptScheduler s)).1.start = now) := by
  refine ⟨fun s => ⟨rfl, rfl⟩, fun now s => rfl, ?_⟩
  intro now b s h
  show max (interruptScheduler s).nextStartTime now = now
  exact max_eq_right h

/-- C2 (witness): interrupting after two scheduled buffers empties the set
and re-anchors the next schedule at the current time 7. -/
theorem interrupt_contract_witness :
    (0 : ℚ) ≤ 7 ∧
    (scheduleForPlayback 7 ⟨[0], 24000, 1⟩
      (interruptScheduler
        (scheduleForPlayback 2 ⟨[0], 24000, 1⟩
          (scheduleForPlayback 1 ⟨[0], 24000, 1⟩ initScheduler).2).2)).1.start = 7 :=
  ⟨by norm_num,
   interrupt_contract.2.2 7 ⟨[0], 24000, 1⟩
     (scheduleForPlayback 2 ⟨[0], 24000, 1⟩
       (scheduleForPlayback 1 ⟨[0], 24000, 1⟩ initScheduler).2).2 (by norm_num)⟩

/-- C5: the virtual timeline cursor is monotonically non-decreasing under
every scheduler operation other than interruption (a schedule raises it to
`max(cursor, now)` and advances it by a non-negative duration; a natural
end leaves it untouched), and an interruption resets it to 0. -/
theorem cursor_monotone_except_interruption :
    (∀ op s, op ≠ SchedOp.interruption →
      s.nextStartTime ≤ (stepScheduler op s).nextStartTime) ∧
    (∀ s, (stepScheduler SchedOp.interruption s).nextStartTime = 0) := by
  refine ⟨?_, fun s => rfl⟩
  intro op s hop
  cases op with
  | schedule now b =>
      show s.nextStartTime ≤ max s.nextStartTime now + bufDuration b
      have h1 : s.nextStartTime ≤ max s.nextStartTime now := le_max_left _ _
      have h2 : 0 ≤ bufDuration b := bufDuration_nonneg b
      linarith
  | ended h =>
      exact le_refl _
  | interruption =>
      exact absurd rfl hop

/-- C5 (witness): a schedule step at time 3 from the initial state does not
decrease the cursor. -/
theorem cursor_monotone_witness :
    SchedOp.schedule 3 ⟨[0], 24000, 1⟩ ≠ SchedOp.interruption ∧
    initScheduler.nextStartTime ≤
      (stepScheduler (SchedOp.schedule 3 ⟨[0], 24000, 1⟩) initScheduler).nextStartTime :=
  ⟨fun h => SchedOp.noConfusion h,
   cursor_monotone_except_interruption.1 (SchedOp.schedule 3 ⟨[0], 24000, 1⟩)
     initScheduler (fun h => SchedOp.noConfusion h)⟩

/-- Decoding produces the empty sample list only from the empty byte
string: one decoded sample consumes two bytes, so a non-empty well-aligned
payload always decodes to at least one sample. -/
theorem decodeSamplesPcm16_nil (bytes : List ℕ)
    (halign : bytes.length % 2 = 0) (hnil : decodeSamplesPcm16 bytes = []) :
    bytes = [] := by
  match bytes with
  | [] => rfl
  | [x] => simp at halign
  | x :: y :: rest =>
      rw [decodeSamplesPcm16] at hnil
      exact absurd hnil (List.cons_ne_nil _ _)

/-- C7: a message whose audio payload decodes to an empty (zero-duration)
buffer is a no-op for the scheduler: such a payload is necessarily the
empty byte string (falsy at the line-100 guard), so no source is created,
no action is emitted, the active set and the cursor are unchanged, and the
handler completes normally. -/
theorem empty_buffer_schedule_noop :
    ∀ now bytes s buf, decodePcm16 bytes 24000 1 = some buf →
      bufDuration buf = 0 →
      handleMessage now ⟨bytes, false⟩ s = HandlerOutcome.ok s [] := by
  intro now bytes s buf hdec hdur
  have halign : bytes.length % 2 = 0 := by
    unfold decodePcm16 at hdec
    by_cases h : bytes.length % (2 * 1) = 0
    · simpa using h
    · rw [if_neg h] at hdec
      exact Option.noConfusion hdec
  have hbuf : buf = ⟨decodeSamplesPcm16 bytes, 24000, 1⟩ := by
    unfold decodePcm16 at hdec
    rw [if_pos (by simpa using halign)] at hdec
    exact (Option.some_injective _ hdec).symm
  have hsamples : decodeSamplesPcm16 bytes = [] := by
    subst hbuf
    unfold bufDuration at hdur
    simp only at hdur
    have hlen : ((decodeSamplesPcm16 bytes).length : ℚ) = 0 := by
      by_contra hne
      have hpos : (0 : ℚ) < ((1 : ℕ) : ℚ) * ((24000 : ℕ) : ℚ) := by norm_num
      rw [div_eq_zero_iff] at hdur
      rcases hdur with h | h
      · exact hne h
      · rw [h] at hpos
        exact lt_irrefl 0 hpos
    rw [Nat.cast_eq_zero] at hlen
    exact List.length_eq_zero.mp hlen
  have hempty : bytes = [] := decodeSamplesPcm16_nil bytes halign hsamples
  subst hempty
  rfl

/-- C7 (witness): the empty payload decodes to the empty zero-duration
buffer and handling it leaves the initial scheduler state untouched. -/
theorem empty_buffer_schedule_noop_witness :
    decodePcm16 [] 24000 1 = some ⟨[], 24000, 1⟩ ∧
    bufDuration ⟨[], 24000, 1⟩ = 0 ∧
    handleMessage 5 ⟨[], false⟩ initScheduler = HandlerOutcome.ok initScheduler [] :=
  ⟨rfl, by norm_num [bufDuration],
   empty_buffer_schedule_noop 5 [] initScheduler ⟨[], 24000, 1⟩ rfl
     (by norm_num [bufDuration])⟩

/-- C10: within one `onmessage` invocation the audio payload is scheduled
before the `interrupted` flag is checked, so a message that carries both an
audio chunk and the interruption flag leaves an empty active set and a zero
cursor, with the freshly scheduled source appearing in the emitted actions
(a `play` followed by a `stopAll` that includes it). -/
theorem message_interrupt_after_audio :
    ∀ now m s s2 acts, m.interrupted = true →
      handleMessage now m s = HandlerOutcome.ok s2 acts →
      s2.sources = [] ∧ s2.nextStartTime = 0 ∧
      (m.audioData ≠ [] →
        ∃ buf, decodePcm16 m.audioData 24000 1 = some buf ∧
          acts = [SchedAction.play (scheduleForPlayback now buf s).1,
                  SchedAction.stopAll
                    (s.sources ++ [(scheduleForPlayback now buf s).1])]) := by
  intro now m s s2 acts hint hrun
  unfold handleMessage at hrun
  by_cases hempty : m.audioData.isEmpty
  · rw [if_pos hempty] at hrun
    simp only [hint, if_true] at hrun
    obtain ⟨hs2, hacts⟩ := HandlerOutcome.ok.inj hrun
    refine ⟨?_, ?_, ?_⟩
    · rw [← hs2]
      rfl
    · rw [← hs2]
      rfl
    · intro hne
      exact absurd (List.isEmpty_iff.mp hempty) hne
  · rw [if_neg hempty] at hrun
    cases hdec : decodePcm16 m.audioData 24000 1 with
    | none =>
        rw [hdec] at hrun
        exact HandlerOutcome.noConfusion hrun
    | some buf =>
        rw [hdec] at hrun
        simp only [hint, if_true] at hrun
        obtain ⟨hs2, hacts⟩ := HandlerOutcome.ok.inj hrun
        refine ⟨?_, ?_, ?_⟩
        · rw [← hs2]
          rfl
        · rw [← hs2]
          rfl
        · intro _
          refine ⟨buf, rfl, ?_⟩
          rw [← hacts]
          rfl

/-- C10 (witness): a concrete message carrying both a 2-byte audio chunk
and the interruption flag, handled at time 5 from the initial state: the
chunk is scheduled (a `play` action) and immediately stopped (it appears in
the `stopAll`), and the final state is empty with cursor 0. -/
theorem message_interrupt_after_audio_witness :
    handleMessage 5 ⟨[2, 128], true⟩ initScheduler =
      HandlerOutcome.ok ⟨0, [], 1⟩
        [SchedAction.play ⟨0, 5, 1 / 24000⟩,
         SchedAction.stopAll [⟨0, 5, 1 / 24000⟩]] ∧
    (⟨0, [], 1⟩ : SchedulerState).sources = [] ∧
    (⟨0, [], 1⟩ : SchedulerState).nextStartTime = 0 ∧
    (∃ buf, decodePcm16 [2, 128] 24000 1 = some buf ∧
      [SchedAction.play ⟨0, 5, 1 / 24000⟩,
       SchedAction.stopAll [⟨0, 5, 1 / 24000⟩]] =
        [SchedAction.play (scheduleForPlayback 5 buf initScheduler).1,
         SchedAction.stopAll
           (initScheduler.sources ++ [(scheduleForPlayback 5 buf initScheduler).1])]) := by
  have hrun : handleMessage 5 ⟨[2, 128], true⟩ initScheduler =
      HandlerOutcome.ok ⟨0, [], 1⟩
        [SchedAction.play ⟨0, 5, 1 / 24000⟩,
         SchedAction.stopAll [⟨0, 5, 1 / 24000⟩]] := by
    norm_num [handleMessage, decodePcm16, decodeSamplesPcm16, uint16ToInt,
      scheduleForPlayback, interruptScheduler, initScheduler, bufDuration]
  have h := message_interrupt_after_audio 5 ⟨[2, 128], true⟩ initScheduler
    ⟨0, [], 1⟩
    [SchedAction.play ⟨0, 5, 1 / 24000⟩, SchedAction.stopAll [⟨0, 5, 1 / 24000⟩]]
    rfl hrun
  exact ⟨hrun, h.1, h.2.1, h.2.2 (List.cons_ne_nil 2 [128])⟩

/-! ### Session lemmas -/

/-- No event changes the value of `isMuted` captured by the mount effect
closure: the effect runs once, so the binding is fixed for the whole
session. -/
theorem runSession_capturedMuted (evts : List SessEvent) (s : SessionState) :
    ((runSession s evts).1).capturedMuted = s.capturedMuted := by
  induction evts generalizing s with
  | nil => rfl
  | cons e es ih =>
      cases e with
      | openEvt => exact ih _
      | tick f =>
          show ((runSession (sessionStep s (SessEvent.tick f)).1 es).1).capturedMuted = _
          rw [ih]
          unfold sessionStep
          by_cases h : s.handlerInstalled <;> simp [h]
      | toggleMute => exact ih _

/-- Before `onopen` has run, no capture handler exists and no event other
than `openEvt` installs one; every tick in an open-free run is silent. -/
theorem runSession_no_frame_without_open (evts : List SessEvent) (s : SessionState)
    (hinst : s.handlerInstalled = false) (hopen : SessEvent.openEvt ∉ evts) :
    ∀ o ∈ (runSession s evts).2, o.frameSent = none := by
  induction evts generalizing s with
  | nil =>
      intro o ho
      exact absurd ho (List.not_mem_nil o)
  | cons e es ih =>
      intro o ho
      have hne : e ≠ SessEvent.openEvt := by
        intro h
        exact hopen (h ▸ List.mem_cons_self e es)
      have hes : SessEvent.openEvt ∉ es := fun h => hopen (List.mem_cons_of_mem e h)
      cases e with
      | openEvt => exact absurd rfl hne
      | tick f =>
          rcases List.mem_cons.mp ho with h | h
          · rw [h]
            show (sessionStep s (SessEvent.tick f)).2.frameSent = none
            simp [sessionStep, hinst, silentTick]
          · exact ih (sessionStep s (SessEvent.tick f)).1
              (by simp [sessionStep, hinst]) hes o h
      | toggleMute =>
          rcases List.mem_cons.mp ho with h | h
          · rw [h]
            rfl
          · exact ih (sessionStep s SessEvent.toggleMute).1
              (by simp [sessionStep, hinst]) hes o h

/-- C6: no outbound frame is ever handed to the transport before `onopen`
has fired: `scriptProcessor.onaudioprocess` is only installed inside the
`onopen` callback, so every tick of a run containing no open event is
silent. -/
theorem no_frame_before_open :
    ∀ evts : List SessEvent, SessEvent.openEvt ∉ evts →
      ((runSession initialSession evts).2.all (fun o => o.frameSent.isNone)) = true := by
  intro evts hopen
  rw [List.all_eq_true]
  intro o ho
  rw [runSession_no_frame_without_open evts initialSession rfl hopen o ho]
  rfl

/-- C6 (witness): a tick and a mute toggle with no open event in between
produce no outbound frame. -/
theorem no_frame_before_open_witness :
    ((runSession initialSession [SessEvent.tick [1 / 2], SessEvent.toggleMute]).2.all
      (fun o => o.frameSent.isNone)) = true :=
  no_frame_before_open [SessEvent.tick [1 / 2], SessEvent.toggleMute] (by
    intro h
    rcases List.mem_cons.mp h with h1 | h1
    · exact SessEvent.noConfusion h1
    · rcases List.mem_cons.mp h1 with h2 | h2
      · exact SessEvent.noConfusion h2
      · exact absurd h2 (List.not_mem_nil _))

/-- C9: the tick handler reads the closure-captured mute flag, not the
current UI state: after any sequence of events in a session started
unmuted — mute toggles included — a tick behaves exactly as the unmuted
handler, publishing a loudness value and forwarding the encoded frame. -/
theorem tick_ignores_ui_mute :
    ∀ evts (f : List ℚ),
      ((runSession initialSession evts).1).handlerInstalled = true →
      (sessionStep (runSession initialSession evts).1 (SessEvent.tick f)).2 =
        onAudioProcess false f := by
  intro evts f hinst
  have hcap : ((runSession initialSession evts).1).capturedMuted = false :=
    runSession_capturedMuted evts initialSession
  simp [sessionStep, hinst, hcap]

/-- C9 (witness): after opening and then muting from the UI, a tick still
behaves as the unmuted handler. -/
theorem tick_ignores_ui_mute_witness :
    ((runSession initialSession [SessEvent.openEvt, SessEvent.toggleMute]).1).handlerInstalled
      = true ∧
    (sessionStep (runSession initialSession [SessEvent.openEvt, SessEvent.toggleMute]).1
      (SessEvent.tick [1 / 2])).2 = onAudioProcess false [1 / 2] :=
  ⟨rfl, tick_ignores_ui_mute [SessEvent.openEvt, SessEvent.toggleMute] [1 / 2] rfl⟩

/-- C3 (counterexample): with the session open and the UI mute flag set, a
capture tick still hands an encoded frame to the transport — the handler
closed over the mount-time value of `isMuted` (false), so muting does not
stop the outbound flow, contradicting the claim that no frame is forwarded
while muted. -/
theorem muted_tick_still_sends :
    ((runSession initialSession [SessEvent.openEvt, SessEvent.toggleMute]).1).uiMuted
      = true ∧
    (sessionStep (runSession initialSession [SessEvent.openEvt, SessEvent.toggleMute]).1
      (SessEvent.tick [1 / 2])).2.frameSent =
      some (encodePcm16 ⟨[1 / 2], 16000, 1⟩) :=
  ⟨rfl, rfl⟩

/-- C3 (amended): toggling mute has no effect on the capture path — for
every tick of an open session whose UI state is muted, a loudness value is
still published and the encoded frame is still forwarded (the handler
reads the mount-time flag, which is false); a handler that did observe a
true flag would return before the loudness computation, dropping the tick
entirely. -/
theorem mute_semantics_in_code :
    (∀ evts (f : List ℚ),
      ((runSession initialSession evts).1).uiMuted = true →
      ((runSession initialSession evts).1).handlerInstalled = true →
      (sessionStep (runSession initialSession evts).1 (SessEvent.tick f)).2.volumePublished
          = some (volumeSq f) ∧
      (sessionStep (runSession initialSession evts).1 (SessEvent.tick f)).2.frameSent
          = some (encodePcm16 ⟨f, 16000, 1⟩)) ∧
    (∀ f : List ℚ, onAudioProcess true f = silentTick) := by
  constructor
  · intro evts f _ hinst
    rw [tick_ignores_ui_mute evts f hinst]
    exact ⟨rfl, rfl⟩
  · intro f
    rfl

/-- C3 (witness): with the UI muted after open, the tick `[1/2]` publishes
its loudness and sends its frame. -/
theorem mute_semantics_in_code_witness :
    (((runSession initialSession [SessEvent.openEvt, SessEvent.toggleMute]).1).uiMuted
        = true ∧
      ((runSession initialSession [SessEvent.openEvt,
        SessEvent.toggleMute]).1).handlerInstalled = true) ∧
    (sessionStep (runSession initialSession [SessEvent.openEvt, SessEvent.toggleMute]).1
        (SessEvent.tick [1 / 2])).2.volumePublished = some (volumeSq [1 / 2]) ∧
    (sessionStep (runSession initialSession [SessEvent.openEvt, SessEvent.toggleMute]).1
        (SessEvent.tick [1 / 2])).2.frameSent =
      some (encodePcm16 ⟨[1 / 2], 16000, 1⟩) :=
  ⟨⟨rfl, rfl⟩,
   mute_semantics_in_code.1 [SessEvent.openEvt, SessEvent.toggleMute] [1 / 2] rfl rfl⟩

/-! ### Teardown lemmas -/

/-- C4 (counterexample): when `sessionRef.current.close()` throws, the two
audio-context releases are skipped (`disconnect` has no `try`/`catch`), the
exception escapes to the caller, and `onClose` is never reached —
contradicting the claim that all three releases are attempted and that
teardown never throws. -/
theorem teardown_short_circuits :
    (disconnect ⟨true, true, true, true, true, false, false⟩).inputAttempted = false ∧
    (disconnect ⟨true, true, true, true, true, false, false⟩).outputAttempted = false ∧
    (disconnect ⟨true, true, true, true, true, false, false⟩).threw = true ∧
    (disconnect ⟨true, true, true, true, true, false, false⟩).onCloseCalled = false :=
  ⟨rfl, rfl, rfl, rfl⟩

/-- C4 (amended): the three releases run strictly in sequence with no
exception handling: when none fails, every present resource is released,
the animation frame is cancelled, nothing is thrown and `onClose` runs;
when the transport close fails, both audio-context releases are skipped and
the exception propagates; when the input-context close fails, the output
release is skipped and the exception propagates. -/
theorem teardown_sequential_no_handler :
    (∀ env : TeardownEnv,
      env.sessionCloseFails = false → env.inputCloseFails = false →
      env.outputCloseFails = false →
      disconnect env = ⟨env.sessionPresent, env.inputPresent, env.outputPresent,
        env.animPresent, false, true⟩) ∧
    (∀ env : TeardownEnv,
      env.sessionPresent = true → env.sessionCloseFails = true →
      (disconnect env).inputAttempted = false ∧
      (disconnect env).outputAttempted = false ∧
      (disconnect env).threw = true ∧
      (disconnect env).onCloseCalled = false) ∧
    (∀ env : TeardownEnv,
      env.inputPresent = true → env.inputCloseFails = true →
      (disconnect env).outputAttempted = false ∧
      (disconnect env).threw = true ∧
      (disconnect env).onCloseCalled = false) := by
  refine ⟨?_, ?_, ?_⟩
  · intro env h1 h2 h3
    unfold disconnect
    rw [h1, h2, h3]
    simp
  · intro env h1 h2
    unfold disconnect
    rw [h1, h2]
    exact ⟨rfl, rfl, rfl, rfl⟩
  · intro env h1 h2
    unfold disconnect
    by_cases hs : env.sessionPresent && env.sessionCloseFails
    · rw [if_pos hs]
      exact ⟨rfl, rfl, rfl⟩
    · rw [if_neg hs, h1, h2]
      exact ⟨rfl, rfl, rfl⟩

/-- C4 (witness): a run with nothing failing releases everything and
reaches `onClose`; a run where the transport close throws skips the audio
releases. -/
theorem teardown_sequential_witness :
    (disconnect ⟨true, true, true, true, false, false, false⟩ =
      ⟨true, true, true, true, false, true⟩) ∧
    ((disconnect ⟨true, true, true, true, true, false, false⟩).inputAttempted = false ∧
      (disconnect ⟨true, true, true, true, true, false, false⟩).outputAttempted = false ∧
      (disconnect ⟨true, true, true, true, true, false, false⟩).threw = true ∧
      (disconnect ⟨true, true, true, true, true, false, false⟩).onCloseCalled = false) ∧
    ((disconnect ⟨false, true, true, true, false, true, false⟩).outputAttempted = false ∧
      (disconnect ⟨false, true, true, true, false, true, false⟩).threw = true ∧
      (disconnect ⟨false, true, true, true, false, true, false⟩).onCloseCalled = false) :=
  ⟨teardown_sequential_no_handler.1 ⟨true, true, true, true, false, false, false⟩ rfl rfl rfl,
   teardown_sequential_no_handler.2.1 ⟨true, true, true, true, true, false, false⟩ rfl rfl,
   teardown_sequential_no_handler.2.2 ⟨false, true, true, true, false, true, false⟩ rfl rfl⟩

end ConsumerLumen
